import Mathlib

/-!
Shallow embedding of the scene-instantiation runtime (`src/app.js`).

JS strings are modelled as Lean `String` (lists of characters); JS
`undefined`/absent fields as `Option`; JS numbers appearing in the scene
graph as `ℚ` (they are finite JSON literals).  Each definition mirrors one
JS function or code block, named after it.
-/

namespace DreamRuntime

/-! ## Character-list string primitives (JS `indexOf`, `lastIndexOf`,
`split`, `join`, `includes` over a string pattern). -/

/-- Does `pat` occur in `s` starting at its head?  (`s.take pat.length = pat`). -/
def leadMatch (pat s : List Char) : Bool := decide (s.take pat.length = pat)

/-- Index of the first occurrence of `pat` in `s` (JS `String.indexOf`,
`none` for `-1`). -/
def firstIdxOf (pat : List Char) : List Char → Option Nat
  | [] => if leadMatch pat [] then some 0 else none
  | c :: t =>
    if leadMatch pat (c :: t) then some 0
    else (firstIdxOf pat t).map (· + 1)

/-- Index of the last occurrence of `pat` in `s` (JS `String.lastIndexOf`,
`none` for `-1`). -/
def lastIdxOf (pat : List Char) : List Char → Option Nat
  | [] => if leadMatch pat [] then some 0 else none
  | c :: t =>
    match lastIdxOf pat t with
    | some i => some (i + 1)
    | none => if leadMatch pat (c :: t) then some 0 else none

/-- JS `String.includes`. -/
def containsStr (s pat : String) : Bool := (firstIdxOf pat.toList s.toList).isSome

/-- JS `String.indexOf` on strings. -/
def strIndexOf (s pat : String) : Option Nat := firstIdxOf pat.toList s.toList

/-- JS `String.slice(n)` / `substring(n)`. -/
def strDropN (s : String) (n : Nat) : String := String.mk (s.toList.drop n)

/-- JS `String.split(sep)` for a single-character separator, on char lists. -/
def splitOnChar (sep : Char) : List Char → List (List Char)
  | [] => [[]]
  | c :: cs =>
    let rest := splitOnChar sep cs
    if c = sep then [] :: rest
    else
      match rest with
      | [] => [[c]]
      | h :: t => (c :: h) :: t

/-- JS `Array.join(sep)` for a single-character separator, on char lists. -/
def joinWithChar (sep : Char) : List (List Char) → List Char
  | [] => []
  | [x] => x
  | x :: y :: t => x ++ sep :: joinWithChar sep (y :: t)

/-- JS `String.split(sep)` returning Lean strings. -/
def strSplit (s : String) (sep : Char) : List String :=
  (splitOnChar sep s.toList).map String.mk

/-- JS `toLowerCase` (the runtime only lowercases ASCII names). -/
def jsToLower (s : String) : String := String.mk (s.toList.map Char.toLower)

/-! ## `toRelativeAssetPath` (src/app.js lines 901-921) -/

/-- `pathStr.split('/').join('_').split('\\').join('_')` — step 4's
sanitizer (src/app.js line 920). -/
def sanitizePath (s : String) : String :=
  String.mk (joinWithChar '_'
    (splitOnChar '\\' (joinWithChar '_' (splitOnChar '/' s.toList))))

/-- Step 2 of `toRelativeAssetPath`: the `projects` rule
(src/app.js lines 910-914); `none` means fall through. -/
def relStep2 (parts : List String) : Option String :=
  match parts.findIdx? (fun x => x == "projects") with
  | some projIdx =>
    if projIdx + 2 < parts.length then
      let after := String.intercalate "/" (parts.drop (projIdx + 2))
      if after ≠ "" then some after else none
    else none
  | none => none

/-- Steps 3 and 4 of `toRelativeAssetPath` (src/app.js lines 916-920). -/
def relStep34 (pathStr : String) (parts : List String) : String :=
  let filename := parts.getLast?.getD ""
  if filename ≠ "" then filename else sanitizePath pathStr

/-- `toRelativeAssetPath` (src/app.js lines 901-921).  Step 1 uses
`indexOf('/assets/')` and drops `idx + '/assets/'.length` characters. -/
def toRelativeAssetPath (storagePath : String) : String :=
  let pathStr := storagePath
  match strIndexOf pathStr "/assets/" with
  | some idx => strDropN pathStr (idx + 8)
  | none =>
    let parts := strSplit pathStr '/'
    match relStep2 parts with
    | some s => s
    | none => relStep34 pathStr parts

/-! ## `getFilenameFromUrl` (src/app.js lines 59-71) -/

/-- One character of the `/^[a-f0-9-]{36}_(.+)$/i` UUID pattern. -/
def isUuidChar (c : Char) : Bool :=
  decide (('a' ≤ c ∧ c ≤ 'f') ∨ ('A' ≤ c ∧ c ≤ 'F') ∨ ('0' ≤ c ∧ c ≤ '9') ∨ c = '-')

/-- `getFilenameFromUrl` (src/app.js lines 59-71): last `/`-segment,
query/fragment stripped, then a 36-char UUID prefix plus `_` stripped. -/
def getFilenameFromUrl (url : String) : String :=
  if url = "" then ""
  else
    let lastPart := ((strSplit url '/').getLast?).getD ""
    let clean :=
      ((strSplit (((strSplit lastPart '?').headI)) '#').headI)
    let cs := clean.toList
    if 38 ≤ cs.length ∧ (cs.take 36).all isUuidChar ∧ cs.getD 36 ' ' = '_' then
      String.mk (cs.drop 37)
    else clean

/-! ## Scene-graph data model (§3; src/app.js node objects) -/

/-- A saved scene-graph node, restricted to the fields the identity
resolver and visibility merge read.  `visible`/`enabled` are tri-state
(`none` = absent, which JS treats as `!== false`, i.e. visible). -/
structure SGNode where
  id : String
  kind : String
  name : String
  parentId : Option String
  visible : Option Bool
  enabled : Option Bool
deriving DecidableEq, Repr

/-- A runtime mesh as produced by the asset loader and mutated by the
runtime: `isMesh` models the `instanceof BABYLON.Mesh` filter,
`uniqueId` the transient numeric handle, `stableId` the
`metadata.stableId` stamp (`none` = no metadata stamp yet), `visibility`
the numeric opacity flag. -/
structure BMesh where
  name : String
  isMesh : Bool
  uniqueId : Nat
  stableId : Option String
  visibility : Nat
deriving DecidableEq, Repr

/-! ## JS `Map` model (string-keyed association list with
last-write-wins `set`) -/

/-- JS `Map.get` (`none` for `undefined`). -/
def assocGet? {α : Type} (m : List (String × α)) (k : String) : Option α :=
  (m.find? (fun e => e.1 == k)).map (·.2)

/-- JS `Map.set`: overwrite the existing entry for `k`, else append. -/
def assocSet {α : Type} (m : List (String × α)) (k : String) (v : α) :
    List (String × α) :=
  match m with
  | [] => [(k, v)]
  | e :: t => if e.1 == k then (k, v) :: t else e :: assocSet t k v

/-! ## Identity resolver: load-time stamping
(`loadModelFromAssets`, src/app.js lines 474-540) -/

/-- `getChildTokenFromId` (src/app.js lines 476-479 and 357-360):
the substring after the last `"::mesh::"`, or `none`. -/
def getChildTokenFromId (id : String) : Option String :=
  match lastIdxOf "::mesh::".toList id.toList with
  | some i => some (strDropN id (i + 8))
  | none => none

/-- `(name || 'Mesh').toLowerCase()` (src/app.js lines 489 and 511). -/
def normName (s : String) : String := jsToLower (if s = "" then "Mesh" else s)

/-- The scene-graph children of one model node
(src/app.js line 482: `n.parentId === node.id && n.kind === 'mesh'`). -/
def childNodesOf (nodes : List SGNode) (modelId : String) : List SGNode :=
  nodes.filter (fun n => n.parentId == some modelId && n.kind == "mesh")

/-- Step 2 of the stamping patch (src/app.js lines 486-497): build the
`lowercase(name)::occurrenceIndex → (node, token)` map over the saved
children, threading the per-name occurrence counter. -/
def buildSgIndexGo (counts : List (String × Nat))
    (index : List (String × (SGNode × String))) :
    List SGNode → List (String × (SGNode × String))
  | [] => index
  | cn :: rest =>
    let nm := normName cn.name
    let idx := (assocGet? counts nm).getD 0
    let token := (getChildTokenFromId cn.id).getD ""
    let key := nm ++ "::" ++ toString idx
    buildSgIndexGo (assocSet counts nm (idx + 1))
      (assocSet index key (cn, token)) rest

/-- `sgIndex` of src/app.js lines 486-497. -/
def buildSgIndex (children : List SGNode) : List (String × (SGNode × String)) :=
  buildSgIndexGo [] [] children

/-- The runtime meshes the stamping walk looks at (src/app.js lines
504-507): actual meshes only, excluding the loader's `__root__` wrapper. -/
def actualMeshes (loaded : List BMesh) : List BMesh :=
  (loaded.filter (fun m => m.isMesh)).filter (fun m => m.name != "__root__")

/-- Result of the stamping walk: `kept` becomes the model's mesh set
(`result.meshes = meshesToKeep`), `disposed` the pruned meshes. -/
structure StampOut where
  kept : List BMesh
  disposed : List BMesh
deriving DecidableEq, Repr

/-- One stamped mesh (src/app.js lines 518-530): `stableId` set from the
matched child's token, visibility = the four-way AND with the parent
model node's flags. -/
def stampMesh (m : BMesh) (entry : SGNode × String)
    (parentVisible parentEnabled : Bool) : BMesh :=
  let childVisible := entry.1.visible != some false
  let childEnabled := entry.1.enabled != some false
  let effectiveVisible := childVisible && childEnabled && parentVisible && parentEnabled
  { m with stableId := some entry.2, visibility := if effectiveVisible then 1 else 0 }

/-- Step 3 of the stamping patch (src/app.js lines 500-540): walk the
runtime meshes with the same occurrence counting; a key hit stamps and
keeps the mesh, a miss disposes it. -/
def stampGo (sgIndex : List (String × (SGNode × String)))
    (parentVisible parentEnabled : Bool)
    (counts : List (String × Nat)) : List BMesh → StampOut
  | [] => ⟨[], []⟩
  | m :: rest =>
    let nm := normName m.name
    let idx := (assocGet? counts nm).getD 0
    let key := nm ++ "::" ++ toString idx
    let out := stampGo sgIndex parentVisible parentEnabled
      (assocSet counts nm (idx + 1)) rest
    match assocGet? sgIndex key with
    | some entry => ⟨stampMesh m entry parentVisible parentEnabled :: out.kept, out.disposed⟩
    | none => ⟨out.kept, m :: out.disposed⟩

/-- The whole identity-resolution block of `loadModelFromAssets`
(src/app.js lines 470-540) for one model node and its loaded meshes. -/
def loadModelStamp (nodes : List SGNode) (modelNode : SGNode)
    (loaded : List BMesh) : StampOut :=
  let parentVisible := modelNode.visible != some false
  let parentEnabled := modelNode.enabled != some false
  let sgIndex := buildSgIndex (childNodesOf nodes modelNode.id)
  stampGo sgIndex parentVisible parentEnabled [] (actualMeshes loaded)

/-! ## Pass 2: child-mesh nodes in `instantiateNode`
(src/app.js lines 350-419) -/

/-- `/^[0-9]+$/.test(token)` (src/app.js line 368). -/
def isAllDigits (s : String) : Bool :=
  !s.isEmpty && s.toList.all (fun c => c.isDigit)

/-- Position of the mesh `instantiateNode` resolves for a child token
(src/app.js lines 363-371): first by `metadata.stableId`, then — only
when that failed and the token is all digits — by numeric `uniqueId`. -/
def resolveChildMeshIdx (sceneMeshes : List BMesh) (token : String) : Option Nat :=
  match sceneMeshes.findIdx? (fun m => m.stableId == some token) with
  | some i => some i
  | none =>
    if isAllDigits token then
      sceneMeshes.findIdx? (fun m => m.uniqueId == (token.toNat?).getD 0)
    else none

/-- Visibility from a node's own flags only
(src/app.js lines 413-418: `(visible && enabled) ? 1 : 0`). -/
def effVisOwn (n : SGNode) : Nat :=
  if (n.visible != some false) && (n.enabled != some false) then 1 else 0

/-- Replace the element at `i` (the JS code mutates the found mesh). -/
def updateAt {α : Type} (i : Nat) (f : α → α) : List α → List α
  | [] => []
  | x :: t =>
    match i with
    | 0 => f x :: t
    | Nat.succ j => x :: updateAt j f t

/-- The deferral test of `instantiateGraph` (src/app.js line 196):
`node.kind === 'mesh' && node.id.includes('::mesh::') && node.parentId`. -/
def isChildMeshNode (n : SGNode) : Bool :=
  n.kind == "mesh" && containsStr n.id "::mesh::" && n.parentId.getD "" != ""

/-- Pass-2 processing of one child-mesh node (src/app.js lines 354-418):
resolve the mesh and, when found, set its visibility from the node's own
flags (the transform assignments carry no state in this model). -/
def pass2Node (sceneMeshes : List BMesh) (n : SGNode) : List BMesh :=
  match getChildTokenFromId n.id with
  | some token =>
    if token ≠ "" then
      match resolveChildMeshIdx sceneMeshes token with
      | some i => updateAt i (fun m => { m with visibility := effVisOwn n }) sceneMeshes
      | none => sceneMeshes
    else sceneMeshes
  | none => sceneMeshes

/-- End-to-end single-model scenario (`instantiateGraph`,
src/app.js lines 190-213): pass-1 loads and stamps the model's meshes,
pass 2 then runs over every deferred child-mesh node of the graph. -/
def runModelScenario (nodes : List SGNode) (modelNode : SGNode)
    (loaded : List BMesh) : List BMesh :=
  let sceneMeshes := (loadModelStamp nodes modelNode loaded).kept
  (nodes.filter isChildMeshNode).foldl pass2Node sceneMeshes

/-! ## Override merge engine (`applyMaterialOverrides`,
src/app.js lines 784-898, and `loadTextureFromAssetPath`, lines 73-92) -/

/-- A Babylon texture, restricted to the fields the override engine
reads/writes.  `url`/`name` use `""` for JS-falsy values. -/
structure BTexture where
  url : String
  name : String
  coordinatesIndex : Nat
  uOffset : Rat
  vOffset : Rat
  uScale : Rat
  vScale : Rat
  uAng : Rat
  vAng : Rat
  wAng : Rat
  wrapU : Nat
  wrapV : Nat
deriving DecidableEq, Repr

/-- A freshly constructed `BABYLON.Texture(url, scene)`: Babylon's
defaults are coordinatesIndex 0, offsets 0, scales 1, angles 0, and
wrap mode 1 (`WRAP_ADDRESSMODE`). -/
def newBabylonTexture (url nm : String) : BTexture :=
  ⟨url, nm, 0, 0, 0, 1, 1, 0, 0, 0, 1, 1⟩

/-- `loadTextureFromAssetPath` (src/app.js lines 73-92): `null` for a
falsy path, else a fresh texture at `'assets/' + toRelativeAssetPath`,
named after the last URL segment. -/
def loadTextureFromAssetPath (assetStoragePath : String) : Option BTexture :=
  if assetStoragePath = "" then none
  else
    let url := "assets/" ++ toRelativeAssetPath assetStoragePath
    let parts2 := strSplit url '/'
    some (newBabylonTexture url (parts2.getLast?.getD ""))

/-- `originalTexture ? (originalTexture.url || originalTexture.name || '') : ''`
(src/app.js line 818). -/
def currentPathOf (originalTexture : Option BTexture) : String :=
  match originalTexture with
  | some ot => if ot.url ≠ "" then ot.url else if ot.name ≠ "" then ot.name else ""
  | none => ""

/-- `!!(originalTexture && originalTexture.url && originalTexture.url.includes('#'))`
(src/app.js line 821). -/
def isEmbeddedTex (originalTexture : Option BTexture) : Bool :=
  match originalTexture with
  | some ot => ot.url != "" && containsStr ot.url "#"
  | none => false

/-- `shouldApplyOverride` (src/app.js line 822). -/
def texOverrideDecision (originalTexture : Option BTexture) (value : String) : Bool :=
  let currentFile := getFilenameFromUrl (currentPathOf originalTexture)
  let overrideFile := getFilenameFromUrl value
  originalTexture.isNone || isEmbeddedTex originalTexture ||
    (currentFile != overrideFile && overrideFile != "")

/-- UV/channel transfer onto the freshly loaded texture (src/app.js lines
831-865): with an original texture, copy its coordinate-set index,
offsets, scales, angles and wrap modes; without one, default the
coordinate-set index to 1 for ambient/lightmap slots and 0 otherwise.
(On a real Babylon texture every guarded property exists and
`coordinatesIndex` is a number, so the `in`/`typeof` guards pass.) -/
def applyUVSettings (property : String) (originalTexture : Option BTexture)
    (tex : BTexture) : BTexture :=
  match originalTexture with
  | some ot =>
    { tex with
      coordinatesIndex := ot.coordinatesIndex
      uOffset := ot.uOffset, vOffset := ot.vOffset
      uScale := ot.uScale, vScale := ot.vScale
      uAng := ot.uAng, vAng := ot.vAng, wAng := ot.wAng
      wrapU := ot.wrapU, wrapV := ot.wrapV }
  | none =>
    if property == "ambientTexture" || property == "lightmapTexture" then
      { tex with coordinatesIndex := 1 }
    else
      { tex with coordinatesIndex := 0 }

/-- The texture branch of the per-property override loop (src/app.js
lines 802-871) for one slot: `some t` means the slot is replaced by `t`,
`none` means the slot is left untouched (either the selective-override
skip or a texture-load failure). -/
def applyTextureOverride (property : String) (slot : Option BTexture)
    (value : String) : Option BTexture :=
  if texOverrideDecision slot value then
    match loadTextureFromAssetPath value with
    | some tex => some (applyUVSettings property slot tex)
    | none => none
  else none

/-! ## Fog mode (`applySceneSettings`, src/app.js lines 651-657) -/

/-- `BABYLON.Scene.FOGMODE_NONE`. -/
def FOGMODE_NONE : Nat := 0
/-- `BABYLON.Scene.FOGMODE_EXP`. -/
def FOGMODE_EXP : Nat := 1
/-- `BABYLON.Scene.FOGMODE_EXP2`. -/
def FOGMODE_EXP2 : Nat := 2
/-- `BABYLON.Scene.FOGMODE_LINEAR`. -/
def FOGMODE_LINEAR : Nat := 3

/-- The fog-mode chain (src/app.js lines 652-657); `none` models an
absent `env.fogMode`. -/
def resolveFogMode (fm : Option String) : Nat :=
  if fm == some "linear" then FOGMODE_LINEAR
  else if fm == some "exp" then FOGMODE_EXP
  else if fm == some "exp2" then FOGMODE_EXP2
  else FOGMODE_NONE

/-! ## ArcRotate camera defaults (`instantiateNode`,
src/app.js lines 232-252).

`alpha || -Math.PI/2`, `beta || Math.PI/2.5` and
`radius || position.length() || 15` coalesce on JS falsiness, so a saved
0 falls through to the default; `minZ`/`maxZ` instead use
`typeof v === 'number'`.  Saved JSON numbers are modelled as `ℚ`
(`none` = absent); the irrational defaults and the position length are
represented symbolically by dedicated constructors. -/

/-- Resolved ArcRotate `alpha`: the saved value or the `-Math.PI / 2`
default (src/app.js line 234). -/
inductive AlphaVal
  | saved (v : Rat)
  | defaultNegHalfPi
deriving DecidableEq, Repr

/-- Resolved ArcRotate `beta`: the saved value or the `Math.PI / 2.5`
default (src/app.js line 235). -/
inductive BetaVal
  | saved (v : Rat)
  | defaultPiDiv2p5
deriving DecidableEq, Repr

/-- Resolved ArcRotate `radius` (src/app.js line 236): the saved value,
`position.length()`, or the literal 15. -/
inductive RadiusVal
  | saved (v : Rat)
  | positionLength
  | default15
deriving DecidableEq, Repr

/-- `cameraProps.alpha || -Math.PI / 2` (src/app.js line 234). -/
def arcAlpha (alpha : Option Rat) : AlphaVal :=
  match alpha with
  | some v => if v = 0 then AlphaVal.defaultNegHalfPi else AlphaVal.saved v
  | none => AlphaVal.defaultNegHalfPi

/-- `cameraProps.beta || Math.PI / 2.5` (src/app.js line 235). -/
def arcBeta (beta : Option Rat) : BetaVal :=
  match beta with
  | some v => if v = 0 then BetaVal.defaultPiDiv2p5 else BetaVal.saved v
  | none => BetaVal.defaultPiDiv2p5

/-- The `position.length() || 15` tail of the radius chain:
`position.length()` is falsy exactly when the position is the origin. -/
def radiusFallback (pos : Rat × Rat × Rat) : RadiusVal :=
  if pos = (0, 0, 0) then RadiusVal.default15 else RadiusVal.positionLength

/-- `cameraProps.radius || position.length() || 15` (src/app.js line 236). -/
def arcRadius (radius : Option Rat) (pos : Rat × Rat × Rat) : RadiusVal :=
  match radius with
  | some v => if v = 0 then radiusFallback pos else RadiusVal.saved v
  | none => radiusFallback pos

/-- `typeof cameraProps.minZ === 'number' ? cameraProps.minZ : 0.1`
(src/app.js line 251); `none` = absent or non-number. -/
def resolveMinZ (minZ : Option Rat) : Rat :=
  match minZ with
  | some v => v
  | none => 1 / 10

/-- `typeof cameraProps.maxZ === 'number' ? cameraProps.maxZ : 100`
(src/app.js line 252). -/
def resolveMaxZ (maxZ : Option Rat) : Rat :=
  match maxZ with
  | some v => v
  | none => 100

/-! ## Claim-side and example definitions -/

/-- C3 as stated by the spec: the override is applied iff the slot is
empty, or the existing texture is embedded, or the basenames differ with
a non-empty override basename.  (The code adds one more requirement:
a loadable, i.e. non-empty, override path.) -/
def claimC3Stated (property : String) (slot : Option BTexture) (value : String) : Prop :=
  (applyTextureOverride property slot value).isSome = true ↔
    (slot = none ∨ isEmbeddedTex slot = true ∨
      (getFilenameFromUrl (currentPathOf slot) ≠ getFilenameFromUrl value ∧
       getFilenameFromUrl value ≠ ""))

/-- The slot texture used by the C4 witness. -/
def c4orig : BTexture := ⟨"assets/blue.png", "blue.png", 2, 5, 7, 2, 3, 1, 2, 3, 0, 0⟩

/-- The applied override texture of the C4 witness: `c4orig`'s UV data
carried onto the freshly loaded "red.png" texture. -/
def c4new : BTexture := ⟨"assets/red.png", "red.png", 2, 5, 7, 2, 3, 1, 2, 3, 0, 0⟩

/-- The `lowercase(name)::occurrenceIndex` key sequence that BOTH
counting loops of the stamping patch compute (src/app.js lines 488-496
over saved children and 510-515 over runtime meshes): one key per name,
threading the per-name occurrence counter. -/
def occKeysGo (counts : List (String × Nat)) : List String → List String
  | [] => []
  | n :: rest =>
    let nm := normName n
    let idx := (assocGet? counts nm).getD 0
    (nm ++ "::" ++ toString idx) :: occKeysGo (assocSet counts nm (idx + 1)) rest

/-- Reassign every runtime mesh's transient numeric handle (used to
state that load-time stamping never consults `uniqueId`). -/
def remapIds (f : Nat → Nat) (ms : List BMesh) : List BMesh :=
  ms.map (fun m => { m with uniqueId := f m.uniqueId })

/-- C5 as stated by the spec for a child mesh: effective visibility is
the AND of the child's and the parent model's visible/enabled flags. -/
def claimChildEffVis (child parent : SGNode) : Nat :=
  if child.visible ≠ some false ∧ child.enabled ≠ some false ∧
     parent.visible ≠ some false ∧ parent.enabled ≠ some false
  then 1 else 0

/-- The spec's end-to-end example: the model node
(`src` = "u1/projects/p1/assets/car.gltf"). -/
def exCarModel : SGNode := ⟨"model-1", "model", "Car", none, none, none⟩

/-- First saved "Wheel" child (token "t0"). -/
def exWheel0 : SGNode := ⟨"model-1::mesh::t0", "mesh", "Wheel", some "model-1", none, none⟩

/-- Second saved "Wheel" child (token "t1"). -/
def exWheel1 : SGNode := ⟨"model-1::mesh::t1", "mesh", "Wheel", some "model-1", none, none⟩

/-- The example scene graph: one model with two saved "Wheel" children. -/
def exCarGraph : List SGNode := [exCarModel, exWheel0, exWheel1]

/-- The example loader output: the synthetic root plus runtime meshes
named "Wheel", "Wheel", "Door" in load order. -/
def exCarLoaded : List BMesh :=
  [⟨"__root__", true, 100, none, 1⟩, ⟨"Wheel", true, 101, none, 1⟩,
   ⟨"Wheel", true, 102, none, 1⟩, ⟨"Door", true, 103, none, 1⟩]

/-- C5 counterexample scenario: an explicitly invisible model node. -/
def c5Model : SGNode := ⟨"model-1", "model", "Car", none, some false, none⟩

/-- C5 counterexample scenario: a visible saved "Wheel" child. -/
def c5Child : SGNode := ⟨"model-1::mesh::t0", "mesh", "Wheel", some "model-1", none, none⟩

/-- C5 counterexample scene graph. -/
def c5Graph : List SGNode := [c5Model, c5Child]

/-- C5 counterexample loader output: one runtime "Wheel" mesh. -/
def c5Loaded : List BMesh := [⟨"Wheel", true, 101, none, 1⟩]

/-- C2 as stated by the spec: "return the substring after the **last**
occurrence" of the `/assets/` marker (`none` when the marker is absent).
This is the spec's wording; the code's `toRelativeAssetPath` is compared
against it. -/
def afterLastAssetsMarker (s : String) : Option String :=
  (lastIdxOf "/assets/".toList s.toList).map
    (fun i => String.mk (s.toList.drop (i + 8)))

/-! # Theorems -/

/-! ## String-primitive lemmas -/

theorem strMk_toList (s : String) : String.mk s.toList = s := by
  cases s; rfl

theorem str_eq_empty_iff (s : String) : s = "" ↔ s.toList = [] := by
  constructor
  · intro h; subst h; rfl
  · intro h; apply String.ext; exact h

theorem splitOnChar_cons (sep c : Char) (cs : List Char) :
    splitOnChar sep (c :: cs) =
      if c = sep then [] :: splitOnChar sep cs
      else
        match splitOnChar sep cs with
        | [] => [[c]]
        | h :: t => (c :: h) :: t := rfl

theorem splitOnChar_ne_nil (sep : Char) (l : List Char) : splitOnChar sep l ≠ [] := by
  induction l with
  | nil => simp [splitOnChar]
  | cons c cs ih =>
    rw [splitOnChar_cons]
    split
    · simp
    · cases h : splitOnChar sep cs with
      | nil => simp
      | cons a t => simp

theorem mem_splitOnChar_not_mem (sep : Char) :
    ∀ (l seg : List Char), seg ∈ splitOnChar sep l → sep ∉ seg := by
  intro l
  induction l with
  | nil =>
    intro seg hseg
    simp [splitOnChar] at hseg
    subst hseg; simp
  | cons c cs ih =>
    intro seg hseg
    rw [splitOnChar_cons] at hseg
    by_cases hc : c = sep
    · rw [if_pos hc] at hseg
      rcases List.mem_cons.mp hseg with h | h
      · subst h; simp
      · exact ih seg h
    · rw [if_neg hc] at hseg
      cases hrest : splitOnChar sep cs with
      | nil => exact absurd hrest (splitOnChar_ne_nil sep cs)
      | cons a t =>
        rw [hrest] at hseg
        rcases List.mem_cons.mp hseg with h | h
        · subst h
          intro hmem
          rcases List.mem_cons.mp hmem with h' | h'
          · exact hc h'.symm
          · exact ih a (by rw [hrest]; exact List.mem_cons_self a t) h'
        · exact ih seg (by rw [hrest]; exact List.mem_cons_of_mem a h)

theorem splitOnChar_of_not_mem (sep : Char) :
    ∀ l : List Char, sep ∉ l → splitOnChar sep l = [l] := by
  intro l
  induction l with
  | nil => intro _; rfl
  | cons c cs ih =>
    intro h
    have hc : ¬ c = sep := fun he => h (by rw [he]; exact List.mem_cons_self _ _)
    have hcs : sep ∉ cs := fun hm => h (List.mem_cons_of_mem c hm)
    rw [splitOnChar_cons, if_neg hc, ih hcs]

theorem joinWithChar_cons_head (c a : Char) (h : List Char) (t : List (List Char)) :
    joinWithChar c ((a :: h) :: t) = a :: joinWithChar c (h :: t) := by
  cases t <;> rfl

theorem joinWithChar_splitOnChar (sep c : Char) :
    ∀ l : List Char,
      joinWithChar c (splitOnChar sep l) =
        l.map (fun x => if x = sep then c else x) := by
  intro l
  induction l with
  | nil => rfl
  | cons a t ih =>
    rw [splitOnChar_cons, List.map_cons]
    by_cases ha : a = sep
    · rw [if_pos ha, if_pos ha]
      cases hrest : splitOnChar sep t with
      | nil => exact absurd hrest (splitOnChar_ne_nil sep t)
      | cons r0 rs =>
        show c :: joinWithChar c (r0 :: rs) = c :: List.map _ t
        rw [← hrest, ih]
    · rw [if_neg ha, if_neg ha]
      cases hrest : splitOnChar sep t with
      | nil => exact absurd hrest (splitOnChar_ne_nil sep t)
      | cons r0 rs =>
        rw [joinWithChar_cons_head, ← hrest, ih]

theorem not_mem_map_replace_self {sep c : Char} (hne : c ≠ sep) (l : List Char) :
    sep ∉ l.map (fun x => if x = sep then c else x) := by
  intro hmem
  rcases List.mem_map.mp hmem with ⟨x, _, hx⟩
  by_cases h : x = sep
  · rw [if_pos h] at hx; exact hne hx
  · rw [if_neg h] at hx; exact h hx

theorem not_mem_map_replace_other {sep c d : Char} (h1 : d ≠ c) {l : List Char}
    (h2 : d ∉ l) : d ∉ l.map (fun x => if x = sep then c else x) := by
  intro hmem
  rcases List.mem_map.mp hmem with ⟨x, hxl, hx⟩
  by_cases h : x = sep
  · rw [if_pos h] at hx; exact h1 hx.symm
  · rw [if_neg h] at hx; subst hx; exact h2 hxl

theorem leadMatch_true_subset {pat s : List Char} (h : leadMatch pat s = true) :
    ∀ x ∈ pat, x ∈ s := by
  unfold leadMatch at h
  rw [decide_eq_true_iff] at h
  intro x hx
  rw [← h] at hx
  exact List.take_subset _ _ hx

theorem firstIdxOf_eq_none {c : Char} {pat : List Char} (hc : c ∈ pat) :
    ∀ s : List Char, c ∉ s → firstIdxOf pat s = none := by
  intro s
  induction s with
  | nil =>
    intro _
    unfold firstIdxOf
    rw [if_neg]
    intro hl
    exact absurd (leadMatch_true_subset hl c hc) (List.not_mem_nil c)
  | cons a t ih =>
    intro h
    unfold firstIdxOf
    rw [if_neg, ih (fun hm => h (List.mem_cons_of_mem a hm))]
    · rfl
    · intro hl
      exact h (leadMatch_true_subset hl c hc)

theorem firstIdxOf_matchAt {pat : List Char} :
    ∀ {s : List Char} {i : Nat}, firstIdxOf pat s = some i →
      (s.drop i).take pat.length = pat := by
  intro s
  induction s with
  | nil =>
    intro i h
    unfold firstIdxOf at h
    split at h
    · rename_i hl
      injection h with h2
      subst h2
      exact decide_eq_true_iff.mp hl
    · cases h
  | cons a t ih =>
    intro i h
    unfold firstIdxOf at h
    split at h
    · rename_i hl
      injection h with h2
      subst h2
      exact decide_eq_true_iff.mp hl
    · rcases Option.map_eq_some'.mp h with ⟨j, hj, hij⟩
      subst hij
      rw [List.drop_succ_cons]
      exact ih hj

theorem firstIdxOf_min {pat : List Char} :
    ∀ {s : List Char} {i : Nat}, firstIdxOf pat s = some i →
      ∀ j < i, (s.drop j).take pat.length ≠ pat := by
  intro s
  induction s with
  | nil =>
    intro i h
    unfold firstIdxOf at h
    split at h
    · injection h with h2
      subst h2
      intro j hj
      exact absurd hj (Nat.not_lt_zero j)
    · cases h
  | cons a t ih =>
    intro i h
    unfold firstIdxOf at h
    split at h
    · injection h with h2
      subst h2
      intro j hj
      exact absurd hj (Nat.not_lt_zero j)
    · rename_i hl
      rcases Option.map_eq_some'.mp h with ⟨j0, hj0, hij⟩
      subst hij
      intro j hj
      cases j with
      | zero =>
        intro hmat
        exact hl (decide_eq_true_iff.mpr hmat)
      | succ j' =>
        rw [List.drop_succ_cons]
        exact ih hj0 j' (Nat.lt_of_succ_lt_succ hj)

/-! ## Path-normalizer lemmas -/

theorem relStep2_singleton (x : String) : relStep2 [x] = none := by
  unfold relStep2
  cases h : List.findIdx? (fun y => y == "projects") [x] with
  | none => rfl
  | some j =>
    have hj : j = 0 := by
      rw [List.findIdx?_cons] at h
      split at h
      · injection h with h2; exact h2.symm
      · simp [List.findIdx?] at h
    subst hj
    simp

theorem toRel_no_slash (f : String) (hf : ¬ f = "") (hs : '/' ∉ f.toList) :
    toRelativeAssetPath f = f := by
  have hidx : strIndexOf f "/assets/" = none :=
    firstIdxOf_eq_none (by decide : '/' ∈ "/assets/".toList) f.toList hs
  have hsplit : strSplit f '/' = [f] := by
    unfold strSplit
    rw [splitOnChar_of_not_mem _ _ hs]
    simp [strMk_toList]
  simp only [toRelativeAssetPath, hidx, hsplit, relStep2_singleton, relStep34]
  simp [hf]

theorem sanitizePath_toList (p : String) :
    (sanitizePath p).toList =
      (p.toList.map (fun x => if x = '/' then '_' else x)).map
        (fun x => if x = '\\' then '_' else x) := by
  unfold sanitizePath
  rw [joinWithChar_splitOnChar, joinWithChar_splitOnChar]
  rfl

theorem sanitizePath_no_slash (p : String) : '/' ∉ (sanitizePath p).toList := by
  rw [sanitizePath_toList]
  exact not_mem_map_replace_other (by decide)
    (not_mem_map_replace_self (by decide) p.toList)

theorem sanitizePath_empty_iff (p : String) : sanitizePath p = "" ↔ p = "" := by
  rw [str_eq_empty_iff, sanitizePath_toList, str_eq_empty_iff p]
  constructor
  · intro h
    rcases List.map_eq_nil_iff.mp (List.map_eq_nil_iff.mp h) with h2
    exact h2
  · intro h; rw [h]; rfl

/-- C9: the fog-mode setting maps "exp2" to the EXP2 constant, "linear"
to LINEAR, "exp" to EXP, and every other string — and absence — to the
NONE constant. -/
theorem claim_C9_fog_mode :
    resolveFogMode (some "exp2") = FOGMODE_EXP2 ∧
    resolveFogMode (some "linear") = FOGMODE_LINEAR ∧
    resolveFogMode (some "exp") = FOGMODE_EXP ∧
    resolveFogMode none = FOGMODE_NONE ∧
    ∀ s : String, s ≠ "linear" → s ≠ "exp" → s ≠ "exp2" →
      resolveFogMode (some s) = FOGMODE_NONE := by
  refine ⟨by decide, by decide, by decide, by decide, ?_⟩
  intro s h1 h2 h3
  simp [resolveFogMode, h1, h2, h3]

/-- Witness for C9: the unrecognized string "fancy" maps to NONE. -/
theorem claim_C9_witness : resolveFogMode (some "fancy") = FOGMODE_NONE :=
  claim_C9_fog_mode.2.2.2.2 "fancy" (by decide) (by decide) (by decide)

/-- C10: for an ArcRotate camera, saved alpha/beta/radius equal to 0 are
replaced by the built-in defaults (−π/2, π/2.5, position length or 15)
because the code coalesces on falsiness, while nonzero saved values are
honored; minZ and maxZ of 0 are honored because they are checked with a
numeric type test. -/
theorem claim_C10_camera_zero_defaults :
    arcAlpha (some 0) = AlphaVal.defaultNegHalfPi ∧
    arcBeta (some 0) = BetaVal.defaultPiDiv2p5 ∧
    (∀ pos : Rat × Rat × Rat, arcRadius (some 0) pos = radiusFallback pos) ∧
    (∀ pos : Rat × Rat × Rat, pos ≠ (0, 0, 0) →
      radiusFallback pos = RadiusVal.positionLength) ∧
    radiusFallback (0, 0, 0) = RadiusVal.default15 ∧
    resolveMinZ (some 0) = 0 ∧
    resolveMaxZ (some 0) = 0 ∧
    (∀ v : Rat, v ≠ 0 →
      arcAlpha (some v) = AlphaVal.saved v ∧
      arcBeta (some v) = BetaVal.saved v ∧
      ∀ pos : Rat × Rat × Rat, arcRadius (some v) pos = RadiusVal.saved v) := by
  refine ⟨by decide, by decide, ?_, ?_, by decide, by decide, by decide, ?_⟩
  · intro pos; simp [arcRadius]
  · intro pos h; rw [radiusFallback, if_neg h]
  · intro v hv
    refine ⟨?_, ?_, ?_⟩
    · simp [arcAlpha, hv]
    · simp [arcBeta, hv]
    · intro pos; simp [arcRadius, hv]

/-- Witness for C10: the nonzero alpha 1 is honored, and a nonzero
position yields the position-length radius default. -/
theorem claim_C10_witness :
    arcAlpha (some 1) = AlphaVal.saved 1 ∧
    radiusFallback (1, 2, 3) = RadiusVal.positionLength :=
  ⟨(claim_C10_camera_zero_defaults.2.2.2.2.2.2.2 1 (by decide)).1,
   claim_C10_camera_zero_defaults.2.2.2.1 (1, 2, 3) (by decide)⟩


/-- Counterexample to C3: an empty-string override path on an empty slot
satisfies the claim's "slot has no existing texture" arm, but the code's
`loadTextureFromAssetPath` returns null for a falsy path, so no texture
replaces the slot. -/
theorem claim_C3_counterexample : ¬ claimC3Stated "albedoTexture" none "" := by
  unfold claimC3Stated
  decide

/-- C3 (amended): a string texture override is applied iff the override
path is non-empty AND (the slot has no existing texture, or the existing
texture is embedded — its source URL contains "#" —, or the basenames of
existing source and override source differ with the override's basename
non-empty); otherwise the slot is left untouched. -/
theorem claim_C3_override_decision :
    ∀ (property : String) (slot : Option BTexture) (value : String),
      (applyTextureOverride property slot value).isSome = true ↔
        (value ≠ "" ∧ (slot = none ∨ isEmbeddedTex slot = true ∨
          (getFilenameFromUrl (currentPathOf slot) ≠ getFilenameFromUrl value ∧
           getFilenameFromUrl value ≠ ""))) := by
  intro property slot value
  by_cases hv : value = ""
  · subst hv
    simp only [applyTextureOverride, loadTextureFromAssetPath]
    split <;> simp
  · constructor
    · intro h
      refine ⟨hv, ?_⟩
      unfold applyTextureOverride at h
      split at h
      · rename_i hd
        simp only [texOverrideDecision, Bool.or_eq_true, Bool.and_eq_true,
          Option.isNone_iff_eq_none, bne_iff_ne, ne_eq] at hd
        tauto
      · simp at h
    · rintro ⟨-, hcond⟩
      unfold applyTextureOverride
      rw [if_pos ?_]
      · simp [loadTextureFromAssetPath, hv]
      · simp only [texOverrideDecision, Bool.or_eq_true, Bool.and_eq_true,
          Option.isNone_iff_eq_none, bne_iff_ne, ne_eq]
        tauto

/-- C4: when an override texture is applied over an existing slot
texture, the new texture receives the original's UV coordinate-set
index, U/V offsets, U/V scales, U/V/W rotation angles and U/V wrap
modes; when the slot was empty, the coordinate-set index defaults to 1
for ambientTexture/lightmapTexture and to 0 for every other slot. -/
theorem claim_C4_uv_preservation :
    ∀ (property value : String) (ot t : BTexture),
      (applyTextureOverride property (some ot) value = some t →
        t.coordinatesIndex = ot.coordinatesIndex ∧
        t.uOffset = ot.uOffset ∧ t.vOffset = ot.vOffset ∧
        t.uScale = ot.uScale ∧ t.vScale = ot.vScale ∧
        t.uAng = ot.uAng ∧ t.vAng = ot.vAng ∧ t.wAng = ot.wAng ∧
        t.wrapU = ot.wrapU ∧ t.wrapV = ot.wrapV) ∧
      (applyTextureOverride property none value = some t →
        t.coordinatesIndex =
          if property = "ambientTexture" ∨ property = "lightmapTexture"
          then 1 else 0) := by
  intro property value ot t
  constructor
  · intro h
    unfold applyTextureOverride at h
    split at h
    · split at h
      · injection h with h2
        subst h2
        simp [applyUVSettings]
      · simp at h
    · simp at h
  · intro h
    unfold applyTextureOverride at h
    split at h
    · split at h
      case _ tex _ =>
        injection h with h2
        subst h2
        by_cases hp : property = "ambientTexture" ∨ property = "lightmapTexture"
        · rw [if_pos hp]
          rcases hp with hp | hp <;> subst hp <;> simp [applyUVSettings]
        · rw [if_neg hp]
          push_neg at hp
          simp [applyUVSettings, hp.1, hp.2]
      · simp at h
    · simp at h


/-- Witness for C4: overriding a "blue.png" albedo slot with a
"red.png" path is applied and copies all UV data forward. -/
theorem claim_C4_witness :
    c4new.coordinatesIndex = c4orig.coordinatesIndex ∧
    c4new.uOffset = c4orig.uOffset ∧ c4new.vOffset = c4orig.vOffset ∧
    c4new.uScale = c4orig.uScale ∧ c4new.vScale = c4orig.vScale ∧
    c4new.uAng = c4orig.uAng ∧ c4new.vAng = c4orig.vAng ∧ c4new.wAng = c4orig.wAng ∧
    c4new.wrapU = c4orig.wrapU ∧ c4new.wrapV = c4orig.wrapV :=
  (claim_C4_uv_preservation "albedoTexture" "u1/projects/p1/assets/red.png"
    c4orig c4new).1 (by decide)

/-- Counterexample to C2: on a path containing "/assets/" twice the code
returns everything after the FIRST occurrence (it uses `indexOf`), not
after the last occurrence as claimed. -/
theorem claim_C2_counterexample :
    afterLastAssetsMarker "x/assets/a/assets/b.png" = some "b.png" ∧
    toRelativeAssetPath "x/assets/a/assets/b.png" = "a/assets/b.png" ∧
    some (toRelativeAssetPath "x/assets/a/assets/b.png") ≠
      afterLastAssetsMarker "x/assets/a/assets/b.png" := by
  refine ⟨by decide, by decide, by decide⟩

/-- C2 (amended): for every input containing the literal "/assets/", the
normalizer returns the substring after the FIRST occurrence of the
marker (the index `i` below is a match position and nothing matches
before it). -/
theorem claim_C2_first_occurrence :
    ∀ s : String, containsStr s "/assets/" = true →
      ∃ i : Nat,
        (s.toList.drop i).take 8 = "/assets/".toList ∧
        (∀ j < i, (s.toList.drop j).take 8 ≠ "/assets/".toList) ∧
        toRelativeAssetPath s = String.mk (s.toList.drop (i + 8)) := by
  intro s hc
  unfold containsStr at hc
  rcases Option.isSome_iff_exists.mp hc with ⟨i, hi⟩
  refine ⟨i, ?_, ?_, ?_⟩
  · have h := firstIdxOf_matchAt hi
    simpa using h
  · intro j hj
    have h := firstIdxOf_min hi j hj
    simpa using h
  · have hidx : strIndexOf s "/assets/" = some i := hi
    simp only [toRelativeAssetPath, hidx]
    rfl

/-- Witness for C2 (amended): a concrete single-marker path. -/
theorem claim_C2_witness :
    ∃ i : Nat,
      ("u1/assets/car.gltf".toList.drop i).take 8 = "/assets/".toList ∧
      (∀ j < i, ("u1/assets/car.gltf".toList.drop j).take 8 ≠ "/assets/".toList) ∧
      toRelativeAssetPath "u1/assets/car.gltf" =
        String.mk ("u1/assets/car.gltf".toList.drop (i + 8)) :=
  claim_C2_first_occurrence "u1/assets/car.gltf" (by decide)

/-- C6: the path normalizer is total by construction (it is a Lean
function; in JS every operation it performs on a string input is
non-throwing), returns a string on the empty input, and is idempotent on
already-relative inputs: any input without the "/assets/" marker and
without a "projects" segment normalizes to a fixed point. -/
theorem claim_C6_idempotent :
    (∀ p : String, containsStr p "/assets/" = false →
      "projects" ∉ strSplit p '/' →
      toRelativeAssetPath (toRelativeAssetPath p) = toRelativeAssetPath p) ∧
    toRelativeAssetPath "" = "" := by
  constructor
  · intro p h1 h2
    have hidx : strIndexOf p "/assets/" = none := by
      unfold strIndexOf
      unfold containsStr at h1
      exact Option.not_isSome_iff_eq_none.mp (by rw [h1]; simp)
    have hstep2 : relStep2 (strSplit p '/') = none := by
      unfold relStep2
      rw [List.findIdx?_eq_none_iff.mpr ?_]
      intro x hx
      exact beq_eq_false_iff_ne.mpr (fun he => h2 (he ▸ hx))
    have hnormp : toRelativeAssetPath p = relStep34 p (strSplit p '/') := by
      simp only [toRelativeAssetPath, hidx, hstep2]
    by_cases hf : (strSplit p '/').getLast?.getD "" = ""
    · -- step 4: the sanitized fallback
      have hnorm : toRelativeAssetPath p = sanitizePath p := by
        rw [hnormp]
        unfold relStep34
        simp [hf]
      by_cases hq : sanitizePath p = ""
      · rw [hnorm, hq]
        decide
      · rw [hnorm]
        exact toRel_no_slash _ hq (sanitizePath_no_slash p)
    · -- step 3: the basename
      set f := (strSplit p '/').getLast?.getD "" with hfdef
      have hnorm : toRelativeAssetPath p = f := by
        rw [hnormp]
        unfold relStep34
        simp [← hfdef, hf]
      have hmem : f ∈ strSplit p '/' := by
        cases hl : (strSplit p '/').getLast? with
        | none => exact absurd (by rw [hfdef, hl]; rfl) hf
        | some f0 =>
          have : f = f0 := by rw [hfdef, hl]; rfl
          rcases List.getLast?_eq_some_iff.mp hl with ⟨ys, hys⟩
          rw [this, hys]
          simp
      have hslash : '/' ∉ f.toList := by
        rcases List.mem_map.mp hmem with ⟨l, hl, hfl⟩
        have := mem_splitOnChar_not_mem '/' p.toList l hl
        rw [← hfl]
        simpa [strMk_toList] using this
      rw [hnorm]
      exact toRel_no_slash f hf hslash
  · decide

/-- Witness for C6: the already-relative path "models/car.gltf" is a
fixed point of the normalizer. -/
theorem claim_C6_witness :
    toRelativeAssetPath (toRelativeAssetPath "models/car.gltf") =
      toRelativeAssetPath "models/car.gltf" :=
  claim_C6_idempotent.1 "models/car.gltf" (by decide) (by decide)

/-- Counterexample to C7: normalizing the empty string yields the empty
string, not a non-empty one — the sanitizing fallback preserves the
input's length. -/
theorem claim_C7_counterexample : toRelativeAssetPath "" = "" := by decide

/-- C7 (amended): when steps 1-3 all fall through, the normalizer
returns the input with every "/" and "\" replaced by "_"; that result is
non-empty exactly when the input is non-empty (so the empty string maps
to the empty string). -/
theorem claim_C7_fallback :
    ∀ p : String,
      strIndexOf p "/assets/" = none →
      relStep2 (strSplit p '/') = none →
      (strSplit p '/').getLast?.getD "" = "" →
      toRelativeAssetPath p = sanitizePath p ∧
      (sanitizePath p = "" ↔ p = "") := by
  intro p h1 h2 h3
  constructor
  · simp only [toRelativeAssetPath, h1, h2]
    unfold relStep34
    simp [h3]
  · exact sanitizePath_empty_iff p

/-- Witness for C7 (amended): the input "/" reaches the fallback and
sanitizes to the non-empty "_". -/
theorem claim_C7_witness :
    toRelativeAssetPath "/" = sanitizePath "/" ∧
    (sanitizePath "/" = "" ↔ "/" = "") :=
  claim_C7_fallback "/" (by decide) (by decide) (by decide)

/-! ## Identity-resolver lemmas -/

theorem stampGo_characterization (sg : List (String × (SGNode × String)))
    (pV pE : Bool) :
    ∀ (meshes : List BMesh) (counts : List (String × Nat)),
      stampGo sg pV pE counts meshes =
        ⟨(meshes.zip (occKeysGo counts (meshes.map (·.name)))).filterMap
           (fun q => (assocGet? sg q.2).map (fun e => stampMesh q.1 e pV pE)),
         ((meshes.zip (occKeysGo counts (meshes.map (·.name)))).filter
           (fun q => (assocGet? sg q.2).isNone)).map (·.1)⟩ := by
  intro meshes
  induction meshes with
  | nil => intro counts; rfl
  | cons m rest ih =>
    intro counts
    rw [List.map_cons]
    unfold stampGo occKeysGo
    rw [List.zip_cons_cons, List.filterMap_cons, List.filter_cons]
    simp only [ih]
    cases hk : assocGet? sg
        (normName m.name ++ "::" ++
          toString ((assocGet? counts (normName m.name)).getD 0)) with
    | some entry => simp [hk]
    | none => simp [hk]

theorem stampGo_remap (sg : List (String × (SGNode × String)))
    (pV pE : Bool) (f : Nat → Nat) :
    ∀ (meshes : List BMesh) (counts : List (String × Nat)),
      stampGo sg pV pE counts (remapIds f meshes) =
        ⟨remapIds f (stampGo sg pV pE counts meshes).kept,
         remapIds f (stampGo sg pV pE counts meshes).disposed⟩ := by
  intro meshes
  induction meshes with
  | nil => intro counts; rfl
  | cons m rest ih =>
    intro counts
    show stampGo sg pV pE counts
        ({ m with uniqueId := f m.uniqueId } :: remapIds f rest) = _
    unfold stampGo
    simp only [ih]
    cases hk : assocGet? sg
        (normName m.name ++ "::" ++
          toString ((assocGet? counts (normName m.name)).getD 0)) with
    | some entry => simp [hk, stampMesh, remapIds]
    | none => simp [hk, remapIds]

theorem actualMeshes_remap (f : Nat → Nat) (loaded : List BMesh) :
    actualMeshes (remapIds f loaded) = remapIds f (actualMeshes loaded) := by
  unfold actualMeshes remapIds
  rw [List.filter_map, List.filter_map]
  rfl

theorem updateAt_mem {α : Type} (g : α → α) :
    ∀ (l : List α) (i : Nat) (x : α), x ∈ updateAt i g l →
      x ∈ l ∨ ∃ y ∈ l, x = g y := by
  intro l
  induction l with
  | nil => intro i x hx; simp [updateAt] at hx
  | cons a t ih =>
    intro i x hx
    cases i with
    | zero =>
      rcases List.mem_cons.mp hx with h | h
      · exact Or.inr ⟨a, List.mem_cons_self a t, h⟩
      · exact Or.inl (List.mem_cons_of_mem a h)
    | succ j =>
      rcases List.mem_cons.mp hx with h | h
      · exact Or.inl (h ▸ List.mem_cons_self a t)
      · rcases ih j x h with h2 | ⟨y, hy, hxy⟩
        · exact Or.inl (List.mem_cons_of_mem a h2)
        · exact Or.inr ⟨y, List.mem_cons_of_mem a hy, hxy⟩

theorem effVisOwn_binary (n : SGNode) : effVisOwn n = 0 ∨ effVisOwn n = 1 := by
  unfold effVisOwn
  split
  · exact Or.inr rfl
  · exact Or.inl rfl

theorem pass2Node_preserves_binary (scene : List BMesh) (n : SGNode)
    (h : ∀ m ∈ scene, m.visibility = 0 ∨ m.visibility = 1) :
    ∀ m ∈ pass2Node scene n, m.visibility = 0 ∨ m.visibility = 1 := by
  intro m hm
  unfold pass2Node at hm
  split at hm
  · split at hm
    · split at hm
      · rcases updateAt_mem _ _ _ _ hm with h2 | ⟨y, _, hxy⟩
        · exact h m h2
        · rw [hxy]
          exact effVisOwn_binary n
      · exact h m hm
    · exact h m hm
  · exact h m hm

theorem foldl_pass2_preserves_binary :
    ∀ (ns : List SGNode) (scene : List BMesh),
      (∀ m ∈ scene, m.visibility = 0 ∨ m.visibility = 1) →
      ∀ m ∈ ns.foldl pass2Node scene, m.visibility = 0 ∨ m.visibility = 1 := by
  intro ns
  induction ns with
  | nil => intro scene h; exact h
  | cons n t ih =>
    intro scene h
    rw [List.foldl_cons]
    exact ih _ (pass2Node_preserves_binary scene n h)

theorem stampMesh_visibility (m : BMesh) (entry : SGNode × String) (pV pE : Bool) :
    (stampMesh m entry pV pE).visibility =
      if (entry.1.visible != some false) && (entry.1.enabled != some false)
          && pV && pE
      then 1 else 0 := rfl

theorem stampGo_kept_binary (sg : List (String × (SGNode × String)))
    (pV pE : Bool) (meshes : List BMesh) (counts : List (String × Nat)) :
    ∀ m ∈ (stampGo sg pV pE counts meshes).kept,
      m.visibility = 0 ∨ m.visibility = 1 := by
  intro m hm
  rw [stampGo_characterization] at hm
  rcases List.mem_filterMap.mp hm with ⟨q, _, hq⟩
  rcases Option.map_eq_some'.mp hq with ⟨e, _, hse⟩
  rw [← hse, stampMesh_visibility]
  split
  · exact Or.inr rfl
  · exact Or.inl rfl

/-! ## Claims about the identity resolver -/

/-- C1: load-time identity resolution keys saved children and runtime
meshes (actual meshes, `__root__` excluded) by
`lowercase(name)::occurrenceIndex` in order of appearance; every runtime
mesh whose key hits the saved map is stamped with that child's token and
retained, and every miss is disposed; the final mesh set is exactly the
retained list.  The second conjunct is the spec's end-to-end example:
saved "Wheel" (t0), "Wheel" (t1) against loaded "Wheel","Wheel","Door"
stamps t0 and t1, disposes "Door", and keeps exactly 2 meshes. -/
theorem claim_C1_identity_resolution :
    (∀ (nodes : List SGNode) (modelNode : SGNode) (loaded : List BMesh),
      loadModelStamp nodes modelNode loaded =
        (let sg := buildSgIndex (childNodesOf nodes modelNode.id)
         let pV := modelNode.visible != some false
         let pE := modelNode.enabled != some false
         let ms := actualMeshes loaded
         let keys := occKeysGo [] (ms.map (·.name))
         ⟨(ms.zip keys).filterMap
            (fun q => (assocGet? sg q.2).map (fun e => stampMesh q.1 e pV pE)),
          ((ms.zip keys).filter
            (fun q => (assocGet? sg q.2).isNone)).map (·.1)⟩)) ∧
    ((loadModelStamp exCarGraph exCarModel exCarLoaded).kept.map
        (fun m => (m.name, m.stableId)) =
      [("Wheel", some "t0"), ("Wheel", some "t1")] ∧
     (loadModelStamp exCarGraph exCarModel exCarLoaded).disposed.map (·.name) =
      ["Door"] ∧
     (loadModelStamp exCarGraph exCarModel exCarLoaded).kept.length = 2) := by
  constructor
  · intro nodes modelNode loaded
    unfold loadModelStamp
    exact stampGo_characterization _ _ _ _ _
  · exact ⟨by decide, by decide, by decide⟩

/-- C8: the numeric-token legacy fallback is consulted only by the
pass-2 child-mesh resolution, and there only when the direct stable-token
search failed and the token is all digits; the load-time stamping pass is
invariant under arbitrary reassignment of all transient `uniqueId`
handles, so it never consults them. -/
theorem claim_C8_legacy_fallback :
    (∀ (sceneMeshes : List BMesh) (token : String) (i : Nat),
      sceneMeshes.findIdx? (fun m => m.stableId == some token) = some i →
      resolveChildMeshIdx sceneMeshes token = some i) ∧
    (∀ (sceneMeshes : List BMesh) (token : String),
      isAllDigits token = false →
      resolveChildMeshIdx sceneMeshes token =
        sceneMeshes.findIdx? (fun m => m.stableId == some token)) ∧
    (∀ (nodes : List SGNode) (modelNode : SGNode) (loaded : List BMesh)
        (f : Nat → Nat),
      loadModelStamp nodes modelNode (remapIds f loaded) =
        ⟨remapIds f (loadModelStamp nodes modelNode loaded).kept,
         remapIds f (loadModelStamp nodes modelNode loaded).disposed⟩) := by
  refine ⟨?_, ?_, ?_⟩
  · intro sceneMeshes token i h
    unfold resolveChildMeshIdx
    rw [h]
  · intro sceneMeshes token h
    unfold resolveChildMeshIdx
    cases hf : sceneMeshes.findIdx? (fun m => m.stableId == some token) with
    | some i => rfl
    | none => rw [h]; simp
  · intro nodes modelNode loaded f
    unfold loadModelStamp
    rw [actualMeshes_remap, stampGo_remap]

/-- Witness for C8: a direct stable-token hit is returned as-is. -/
theorem claim_C8_witness :
    resolveChildMeshIdx [⟨"a", true, 5, some "t", 1⟩] "t" = some 0 :=
  claim_C8_legacy_fallback.1 [⟨"a", true, 5, some "t", 1⟩] "t" 0 (by decide)

/-- Counterexample to C5: with the model node saved invisible
(`visible = false`) and its matched "Wheel" child fully visible, the
claim's parent-AND predicts final visibility 0, but after both passes
the runtime mesh ends at visibility 1 — the pass-2 child-mesh transform
step (src/app.js lines 413-418) re-assigns visibility from the child's
own flags only, overwriting the load-time parent-inherited value. -/
theorem claim_C5_counterexample :
    (runModelScenario c5Graph c5Model c5Loaded).map (·.visibility) = [1] ∧
    claimChildEffVis c5Child c5Model = 0 :=
  ⟨by decide, by decide⟩

/-- C5 (amended): every visibility the runtime assigns is a pure boolean
AND yielding a binary 1/0 flag: the per-node assignment in
`instantiateNode` uses exactly `visible ≠ false ∧ enabled ≠ false` of
that node alone, the load-time stamping of a child mesh ANDs the child's
and the parent model's flags; but for a matched child mesh the pass-2
assignment (child-only flags) runs last and overwrites the stamped
value, so the parent conjuncts do not survive into the final state; all
meshes surviving the full scenario carry a binary visibility. -/
theorem claim_C5_visibility :
    (∀ n : SGNode,
      (effVisOwn n = 1 ↔ (n.visible ≠ some false ∧ n.enabled ≠ some false)) ∧
      (effVisOwn n = 0 ∨ effVisOwn n = 1)) ∧
    (∀ (m : BMesh) (entry : SGNode × String) (pV pE : Bool),
      ((stampMesh m entry pV pE).visibility = 1 ↔
        (entry.1.visible ≠ some false ∧ entry.1.enabled ≠ some false ∧
         pV = true ∧ pE = true)) ∧
      ((stampMesh m entry pV pE).visibility = 0 ∨
       (stampMesh m entry pV pE).visibility = 1)) ∧
    (∀ (nodes : List SGNode) (modelNode : SGNode) (loaded : List BMesh),
      ∀ m ∈ runModelScenario nodes modelNode loaded,
        m.visibility = 0 ∨ m.visibility = 1) := by
  refine ⟨?_, ?_, ?_⟩
  · intro n
    constructor
    · unfold effVisOwn
      constructor
      · intro h
        split at h
        · rename_i hc
          rw [Bool.and_eq_true, bne_iff_ne, bne_iff_ne] at hc
          exact hc
        · cases h
      · intro h
        rw [if_pos]
        rw [Bool.and_eq_true, bne_iff_ne, bne_iff_ne]
        exact h
    · exact effVisOwn_binary n
  · intro m entry pV pE
    constructor
    · rw [stampMesh_visibility]
      constructor
      · intro h
        split at h
        · rename_i hc
          simp only [Bool.and_eq_true, bne_iff_ne] at hc
          exact ⟨hc.1.1.1, hc.1.1.2, hc.1.2, hc.2⟩
        · cases h
      · intro h
        rw [if_pos]
        simp only [Bool.and_eq_true, bne_iff_ne]
        exact ⟨⟨⟨h.1, h.2.1⟩, h.2.2.1⟩, h.2.2.2⟩
    · rw [stampMesh_visibility]
      split
      · exact Or.inr rfl
      · exact Or.inl rfl
  · intro nodes modelNode loaded
    unfold runModelScenario
    apply foldl_pass2_preserves_binary
    intro m hm
    exact stampGo_kept_binary _ _ _ _ _ m hm

/-- Witness for C5 (amended): the first kept wheel of the end-to-end
example carries a binary visibility after both passes. -/
theorem claim_C5_witness :
    (⟨"Wheel", true, 101, some "t0", 1⟩ : BMesh).visibility = 0 ∨
    (⟨"Wheel", true, 101, some "t0", 1⟩ : BMesh).visibility = 1 :=
  claim_C5_visibility.2.2 exCarGraph exCarModel exCarLoaded
    ⟨"Wheel", true, 101, some "t0", 1⟩ (by decide)

end DreamRuntime
